import Mathlib

/-!
Verification development for the vitibrasil scraping pipeline (src/app.py).

The Python source is shallowly embedded:

* pandas cell values become the inductive type `Value` (`str`, `int`, `nan`);
  a `pandas.DataFrame` becomes a header list plus a list of rows of `Value`s;
* pure helper functions (`normalize_text`, the numeric coercion chain) become
  Lean functions;
* methods that mutate `self.data` / `self.dados` become functions from the
  frame they read to the frame (or failure) they produce; Python exceptions
  (`IndexError`, `KeyError`, `AttributeError`, pandas `ValueError`) become
  `Option.none`;
* the `unidecode` library and Python's `str.upper` are modelled by finite
  transliteration tables covering the characters used in this development,
  with every character outside the tables kept unchanged.
-/

namespace App

/-- A pandas cell value: a Python string, an integer, or NaN (missing). -/
inductive Value where
  | str (s : String)
  | int (n : Int)
  | nan
deriving DecidableEq, Repr

/-- Transliteration table of the `unidecode` library restricted to the
non-ASCII characters relevant to this development (Portuguese accented
letters, plus the Unicode dash/asterisk forms that `unidecode` folds to
ASCII punctuation: the library maps EN DASH U+2013, FIGURE DASH U+2012 and
MINUS SIGN U+2212 to a single ASCII hyphen, EM DASH U+2014 to two hyphens,
and FULLWIDTH ASTERISK U+FF0A to an ASCII asterisk). -/
def uniTable : List (Char × String) :=
  [('á', "a"), ('à', "a"), ('â', "a"), ('ã', "a"), ('ä', "a"),
   ('é', "e"), ('è', "e"), ('ê', "e"), ('ë', "e"),
   ('í', "i"), ('ì', "i"), ('î', "i"), ('ï', "i"),
   ('ó', "o"), ('ò', "o"), ('ô', "o"), ('õ', "o"), ('ö', "o"),
   ('ú', "u"), ('ù', "u"), ('û', "u"), ('ü', "u"),
   ('ç', "c"), ('ñ', "n"),
   ('Á', "A"), ('À', "A"), ('Â', "A"), ('Ã', "A"), ('Ä', "A"),
   ('É', "E"), ('È', "E"), ('Ê', "E"), ('Ë', "E"),
   ('Í', "I"), ('Ì', "I"), ('Î', "I"), ('Ï', "I"),
   ('Ó', "O"), ('Ò', "O"), ('Ô', "O"), ('Õ', "O"), ('Ö', "O"),
   ('Ú', "U"), ('Ù', "U"), ('Û', "U"), ('Ü', "U"),
   ('Ç', "C"), ('Ñ', "N"),
   ('‒', "-"), ('–', "-"), ('—', "--"), ('−', "-"),
   ('＊', "*")]

/-- One character of `unidecode`: look the character up in the table,
keeping characters outside the table (in particular all ASCII) unchanged. -/
def unidecodeChar (c : Char) : String :=
  match (uniTable.find? (fun p => p.1 = c)).map Prod.snd with
  | some r => r
  | none => String.singleton c

/-- Model of `unidecode(text)`: transliterate character by character. -/
def unidecodeStr (s : String) : String :=
  ⟨(s.data.map (fun c => (unidecodeChar c).data)).flatten⟩

/-- The lowercase-to-uppercase table of ASCII letters. -/
def upperTable : List (Char × Char) :=
  [('a', 'A'), ('b', 'B'), ('c', 'C'), ('d', 'D'), ('e', 'E'), ('f', 'F'),
   ('g', 'G'), ('h', 'H'), ('i', 'I'), ('j', 'J'), ('k', 'K'), ('l', 'L'),
   ('m', 'M'), ('n', 'N'), ('o', 'O'), ('p', 'P'), ('q', 'Q'), ('r', 'R'),
   ('s', 'S'), ('t', 'T'), ('u', 'U'), ('v', 'V'), ('w', 'W'), ('x', 'X'),
   ('y', 'Y'), ('z', 'Z')]

/-- One character of Python's `str.upper`, restricted to ASCII (in the
source, `.upper()` is only ever applied to the output of `unidecode`,
which is ASCII for the characters the tables cover). -/
def pyUpperChar (c : Char) : Char :=
  match (upperTable.find? (fun p => p.1 = c)).map Prod.snd with
  | some u => u
  | none => c

/-- Model of Python's `text.upper()`. -/
def pyUpper (s : String) : String := ⟨s.data.map pyUpperChar⟩

/-- Model of Python's `text.strip()`: drop whitespace from both ends.
(`String.trim` is extensionally the same but is defined by well-founded
recursion on byte positions; this structural version keeps every definition
kernel-computable.) -/
def pyStrip (s : String) : String :=
  ⟨((s.data.dropWhile Char.isWhitespace).reverse.dropWhile
    Char.isWhitespace).reverse⟩

/-- Model of the nested `normalize_text` function of `WebScraper.clean_data`
(src/app.py lines 143-156); the same function is repeated verbatim inside
every `transform_dados` override.  A trimmed `"-"` or `"*"` becomes `"0"`;
any other string is transliterated by `unidecode` and upper-cased; non-string
values pass through unchanged.  (Python's `str.strip` is modelled by
`pyStrip`; both remove surrounding whitespace.) -/
def normalize_text (v : Value) : Value :=
  match v with
  | .str text =>
    if pyStrip text = "-" ∨ pyStrip text = "*" then .str "0"
    else .str (pyUpper (unidecodeStr text))
  | other => other

/-- A pandas DataFrame: a list of column names and the rows of cells. -/
structure DataFrame where
  headers : List String
  rows : List (List Value)
deriving DecidableEq, Repr

/-- Model of `WebScraper.clean_data` (src/app.py lines 139-159): map
`normalize_text` over the frame.  pandas applies the map only to
object-dtype columns, but `normalize_text` is the identity on non-string
cells, so the cell-wise map coincides with the column-wise one. -/
def clean_data (df : DataFrame) : DataFrame :=
  ⟨df.headers, df.rows.map (fun r => r.map normalize_text)⟩

/-! ## Table extraction (`WebScraper.extract_table_data`, src/app.py 50-87) -/

/-- A `td` cell of an HTML row: its text content and its `class` attribute
list (`cell.get('class', [])`). -/
structure Cell where
  text : String
  classes : List String
deriving DecidableEq, Repr

/-- A `tr` of the data table: its `td` cells in order, and whether the row
lives inside the table's `tfoot` with class `tb_total` (so that
`footer and row in footer.find_all('tr')` holds for it). -/
structure Row where
  cells : List Cell
  inFooter : Bool
deriving DecidableEq, Repr

/-- The located data table: the texts of its `th` elements (un-stripped) and
all its `tr` rows in document order; the first `tr` is the header row that
`table.find_all('tr')[1:]` skips. -/
structure Table where
  ths : List String
  trs : List Row
deriving DecidableEq, Repr

/-- The trailing cell added when `classification_button` is truthy (Python
string truthiness: non-empty). -/
def btnPart (classification_button : String) : List String :=
  if classification_button ≠ "" then [classification_button] else []

/-- The row loop of `extract_table_data` (src/app.py lines 63-86), with the
carried state made explicit: `cc` is `current_classification` and `sli` is
`second_last_item`, both initialized to `''`.  Each source row yields
`row_data` (the stripped cell texts) followed by a classification cell —
`'Total'` for footer rows, the row's own first-cell text for `tb_item` rows
(which also update the state), the carried `second_last_item` for
`tb_subitem` rows, `''` otherwise — and then the button cell when
configured.  A non-footer row with no `td` cells makes `cells[0]` raise
`IndexError`, modelled as `none`. -/
def extractRows (classification_button cc sli : String) :
    List Row → Option (List (List String))
  | [] => some []
  | r :: rest =>
    let row_data := r.cells.map (fun c => pyStrip c.text)
    if r.inFooter then
      (extractRows classification_button cc sli rest).map
        (fun out => (row_data ++ ["Total"] ++ btnPart classification_button) :: out)
    else
      match r.cells with
      | [] => none
      | c0 :: _ =>
        if "tb_item" ∈ c0.classes then
          let ncc := pyStrip c0.text
          (extractRows classification_button ncc ncc rest).map
            (fun out => (row_data ++ [ncc] ++ btnPart classification_button) :: out)
        else if "tb_subitem" ∈ c0.classes then
          (extractRows classification_button cc sli rest).map
            (fun out => (row_data ++ [sli] ++ btnPart classification_button) :: out)
        else
          (extractRows classification_button cc sli rest).map
            (fun out => (row_data ++ [""] ++ btnPart classification_button) :: out)

/-- Model of `pd.DataFrame(rows, columns=headers)`: pandas raises
`ValueError` when the widest row disagrees with the number of column names,
and pads narrower rows with NaN. -/
def mkDataFrame (rows : List (List String)) (headers : List String) :
    Option DataFrame :=
  match rows with
  | [] => some ⟨headers, []⟩
  | _ =>
    let w := (rows.map List.length).foldl max 0
    if w = headers.length then
      some ⟨headers,
        rows.map (fun r =>
          r.map Value.str ++ List.replicate (headers.length - r.length) Value.nan)⟩
    else none

/-- Model of `WebScraper.extract_table_data` (src/app.py lines 50-87):
header texts are stripped and extended with `'Classification'` (and
`'Button'` when a button value is supplied), the rows after the header row
are walked by `extractRows` with both state variables initialized to `''`,
and the result is assembled into a DataFrame. -/
def extract_table_data (table : Table) (classification_button : String := "") :
    Option DataFrame :=
  let headers := table.ths.map pyStrip ++ ["Classification"]
    ++ btnPart classification_button
  match extractRows classification_button "" "" (table.trs.drop 1) with
  | none => none
  | some rows => mkDataFrame rows headers

/-! ## Table location (`WebScraper.find_data_table`, src/app.py 41-48) -/

/-- A `table` element of the parsed page: its raw `class` attribute string
and its content. -/
structure TableNode where
  classAttr : String
  table : Table
deriving DecidableEq, Repr

/-- The parsed document, as the sequence of its `table` elements in
document order. -/
abbrev Document := List TableNode

/-- Model of `WebScraper.find_data_table` (src/app.py lines 41-48):
`soup.find('table', class_='tb_base tb_dados')` returns the first table
whose class attribute is exactly `'tb_base tb_dados'`, or `None` — an
explicit absent result, never an exception. -/
def find_data_table (soup : Document) : Option Table :=
  (soup.find? (fun n => n.classAttr = "tb_base tb_dados")).map TableNode.table

/-! ## DataFrame operations used by the scraping loop and the transforms -/

/-- Model of `df[name] = value` for a scalar: overwrite the column when it
exists, else append it. -/
def setColumn (df : DataFrame) (name : String) (v : Value) : DataFrame :=
  if name ∈ df.headers then
    ⟨df.headers, df.rows.map (fun r => r.set (df.headers.indexOf name) v)⟩
  else
    ⟨df.headers ++ [name], df.rows.map (fun r => r ++ [v])⟩

/-- Align one row (with its own header list) to a target header list, as
`pd.concat` does: take the row's value for a shared column, NaN for a
column the row's frame does not have. -/
def rowAlign (target rowHs : List String) (r : List Value) : List Value :=
  target.map (fun h =>
    if rowHs.contains h then r.getD (rowHs.indexOf h) Value.nan else Value.nan)

/-- Model of `pd.concat([a, b], ignore_index=True)`: the headers are `a`'s
followed by `b`'s new ones, `a`'s rows come first, and every row is aligned
to the combined header list. -/
def pdConcat (a b : DataFrame) : DataFrame :=
  let hs := a.headers ++ b.headers.filter (fun h => !a.headers.contains h)
  ⟨hs, a.rows.map (rowAlign hs a.headers) ++ b.rows.map (rowAlign hs b.headers)⟩

/-- The cell of a row under a named column (used to model pandas column
accesses inside row-wise predicates). -/
def getCell (hs : List String) (r : List Value) (name : String) : Value :=
  r.getD (hs.indexOf name) Value.nan

/-- Model of `df.rename(columns={old: new})`: rename matching headers,
silently doing nothing when the old name is absent. -/
def renameColumn (df : DataFrame) (old new : String) : DataFrame :=
  ⟨df.headers.map (fun h => if h = old then new else h), df.rows⟩

/-- Model of `df[cols]` column selection: `KeyError` (`none`) when a
requested column is missing. -/
def selectColumns (df : DataFrame) (cols : List String) : Option DataFrame :=
  if cols.all (fun c => c ∈ df.headers) then
    some ⟨cols, df.rows.map (fun r =>
      cols.map (fun c => r.getD (df.headers.indexOf c) Value.nan))⟩
  else none

/-! ## Numeric coercion (the chain repeated at src/app.py 199-209, 274-284,
362-366, 423-427, 473-477) -/

/-- Model of `Series.astype(str)` on one cell. -/
def pyStr (v : Value) : String :=
  match v with
  | .str s => s
  | .int n => toString n
  | .nan => "nan"

/-- Model of `.str.replace('.', '')` on one cell: remove every literal dot
(pandas 2 default `regex=False`). -/
def removeDots (s : String) : String := ⟨s.data.filter (fun c => c ≠ '.')⟩

/-- Decimal value of a digit list. -/
def digitsToNat (l : List Char) : Nat :=
  l.foldl (fun a c => a * 10 + (c.toNat - 48)) 0

/-- Model of `pd.to_numeric(s, errors='coerce')` restricted to integer
literals: surrounding whitespace and one leading sign are accepted around a
non-empty digit string; anything else (empty, letters, leftover sentinels)
coerces to NaN. -/
def pdToNumericInt (s : String) : Option Int :=
  let t := pyStrip s
  let signed : Int × List Char :=
    match t.data with
    | '-' :: rest => (-1, rest)
    | '+' :: rest => (1, rest)
    | l => (1, l)
  if signed.2 ≠ [] ∧ signed.2.all Char.isDigit then
    some (signed.1 * (digitsToNat signed.2 : Int))
  else none

/-- The full per-cell coercion
`pd.to_numeric(cell.astype(str).str.replace('.', ''), errors='coerce').fillna(0).astype(int)`:
parse failure substitutes zero, never rejecting the cell. -/
def coerceCell (v : Value) : Int :=
  (pdToNumericInt (removeDots (pyStr v))).getD 0

/-- Apply the coercion chain to a named column
(`df[name] = pd.to_numeric(df[name].astype(str).str.replace('.', ''), errors='coerce').fillna(0).astype(int)`);
`KeyError` (`none`) when the column is missing. -/
def coerceIntColumn (df : DataFrame) (name : String) : Option DataFrame :=
  if name ∈ df.headers then
    let i := df.headers.indexOf name
    some ⟨df.headers,
      df.rows.map (fun r => r.set i (Value.int (coerceCell (r.getD i Value.nan))))⟩
  else none

/-! ## Per-kind transforms (`transform_dados`) -/

/-- Model of `SiteProducaoScraper.transform_dados` (src/app.py lines
405-434), as a function of the frame it reads (`self.dados`): normalize all
text cells, rename `'Quantidade (L.)'` to `'Quantidade'`, coerce the
`'Quantidade'` column to integers, select the Production column order, and
keep only the rows satisfying
`(Produto != 'TOTAL') | (Classificação != 'TOTAL')`. -/
def transform_dados_producao (df : DataFrame) : Option DataFrame :=
  let df1 : DataFrame := ⟨df.headers, df.rows.map (fun r => r.map normalize_text)⟩
  let df2 := renameColumn df1 "Quantidade (L.)" "Quantidade"
  match coerceIntColumn df2 "Quantidade" with
  | none => none
  | some df3 =>
    match selectColumns df3 ["Produto", "Classificação", "Ano", "Quantidade"] with
    | none => none
    | some df4 =>
      some ⟨df4.headers, df4.rows.filter (fun r =>
        !(getCell df4.headers r "Produto" == Value.str "TOTAL")
        || !(getCell df4.headers r "Classificação" == Value.str "TOTAL"))⟩

/-- Model of `SiteComercializacaoScraper.transform_dados` (src/app.py lines
455-485); its body is identical to the Production transform. -/
def transform_dados_comercializacao (df : DataFrame) : Option DataFrame :=
  let df1 : DataFrame := ⟨df.headers, df.rows.map (fun r => r.map normalize_text)⟩
  let df2 := renameColumn df1 "Quantidade (L.)" "Quantidade"
  match coerceIntColumn df2 "Quantidade" with
  | none => none
  | some df3 =>
    match selectColumns df3 ["Produto", "Classificação", "Ano", "Quantidade"] with
    | none => none
    | some df4 =>
      some ⟨df4.headers, df4.rows.filter (fun r =>
        !(getCell df4.headers r "Produto" == Value.str "TOTAL")
        || !(getCell df4.headers r "Classificação" == Value.str "TOTAL"))⟩

/-- Model of `SiteExportacaoScraper.transform_dados` (src/app.py lines
179-218).  Its first statement is `super().transform_dados()`, but the base
class `WebScraper` defines no `transform_dados` method, so the call raises
`AttributeError` before any transformation runs: the method fails on every
input frame. -/
def transform_dados_exportacao (_df : DataFrame) : Option DataFrame := none

/-- Model of `SiteImportacaoScraper.transform_dados` (src/app.py lines
254-292).  Like the export transform it opens with
`super().transform_dados()` on a base class without that method, so it
raises `AttributeError` on every input frame. -/
def transform_dados_importacao (_df : DataFrame) : Option DataFrame := none

/-- Model of `SiteProcessamentoScraper.transform_dados` (src/app.py lines
329-373).  It also opens with `super().transform_dados()` on a base class
without that method, so it raises `AttributeError` on every input frame. -/
def transform_dados_processamento (_df : DataFrame) : Option DataFrame := none

/-- The transformations of `SiteExportacaoScraper.transform_dados` after
the failing `super()` call (src/app.py lines 182-218), i.e. what the method
body performs once it is entered: normalize all text cells, rename
`'Quantidade (Kg)'` to `'Quantidade'`, coerce `'Quantidade'` and
`'Valor (US$)'` to integers, select the Export column order, and keep only
the rows satisfying `(Países != 'TOTAL') | (Países != 'TOTAL')` — the
filter written in the source tests the same column twice. -/
def transform_dados_exportacao_body (df : DataFrame) : Option DataFrame :=
  let df1 : DataFrame := ⟨df.headers, df.rows.map (fun r => r.map normalize_text)⟩
  let df2 := renameColumn df1 "Quantidade (Kg)" "Quantidade"
  match coerceIntColumn df2 "Quantidade" with
  | none => none
  | some df3 =>
    match coerceIntColumn df3 "Valor (US$)" with
    | none => none
    | some df4 =>
      match selectColumns df4 ["Países", "Ano", "Quantidade", "Valor (US$)", "Botao"] with
      | none => none
      | some df5 =>
        some ⟨df5.headers, df5.rows.filter (fun r =>
          !(getCell df5.headers r "Países" == Value.str "TOTAL")
          || !(getCell df5.headers r "Países" == Value.str "TOTAL"))⟩

/-! ## The scraping loop (`WebScraper.run_scraping`, src/app.py 89-119) -/

/-- A navigation button as `run_scraping` consumes it: the request
parameter pair and the `classification_button` value passed to
`extract_table_data`. -/
structure Button where
  name : String
  value : String
  classification_button : String
deriving DecidableEq, Repr

/-- Model of `WebScraper.get_buttons` (src/app.py lines 131-137): the base
class raises `NotImplementedError`, and no subclass overrides this method —
the subclasses define `get_botoes` instead — so every call fails. -/
def get_buttons_WebScraper : Option (List Button) := none

/-- One (year, button) iteration of the `run_scraping` loop, as a function
of the running frame `self.data`: fetch and parse the page (abstracted by
`fetchDoc`), locate the data table, and either skip the combination (table
absent: only a message is printed and the frame is unchanged) or extract,
stamp the `'Year'` column and concatenate.  An extraction failure
propagates as `none`. -/
def stepCombo (fetchDoc : Nat → Option Button → Document) (data : DataFrame)
    (year : Nat) (button : Option Button) : Option DataFrame :=
  match find_data_table (fetchDoc year button) with
  | none => some data
  | some table =>
    let btn := match button with
      | some b => b.classification_button
      | none => ""
    match extract_table_data table btn with
    | none => none
    | some df => some (pdConcat data (setColumn df "Year" (Value.int year)))

/-- One year of the `run_scraping` loop: iterate the buttons when the
button list is truthy (non-empty), otherwise do a single pass with no
button (src/app.py lines 95-117). -/
def stepYear (fetchDoc : Nat → Option Button → Document) (buttons : List Button)
    (data : DataFrame) (year : Nat) : Option DataFrame :=
  if buttons.isEmpty then stepCombo fetchDoc data year none
  else buttons.foldlM (fun d b => stepCombo fetchDoc d year (some b)) data

/-- Model of `WebScraper.run_scraping` (src/app.py lines 89-119) with the
button list — the intended result of `get_buttons` — supplied as a
parameter: years outer, buttons inner, accumulating into `self.data`
(initially the empty frame), then `clean_data` at the end. -/
def run_scraping (years : List Nat) (buttons : List Button)
    (fetchDoc : Nat → Option Button → Document) : Option DataFrame :=
  (years.foldlM (fun data y => stepYear fetchDoc buttons data y) ⟨[], []⟩).map
    clean_data

/-- The stamped frame one (year, button) combination contributes: the
extracted frame with its `'Year'` column set, `none` when the table is
absent or extraction fails. -/
def stampedFrame (fetchDoc : Nat → Option Button → Document) (year : Nat)
    (button : Option Button) : Option DataFrame :=
  match find_data_table (fetchDoc year button) with
  | none => none
  | some table =>
    let btn := match button with
      | some b => b.classification_button
      | none => ""
    match extract_table_data table btn with
    | none => none
    | some df => some (setColumn df "Year" (Value.int year))

/-- Check that the frame a combination contributes (when it contributes
one) carries a given header list. -/
def stampedHeadersOK (fetchDoc : Nat → Option Button → Document)
    (hs : List String) (year : Nat) (button : Option Button) : Bool :=
  match stampedFrame fetchDoc year button with
  | some df => df.headers == hs
  | none => true

/-! ## Row-kind vocabulary (glossary of the extraction loop) -/

/-- The stripped text of a row's first cell (`row_data[0]`). -/
def firstLabel (r : Row) : String :=
  match r.cells with
  | [] => ""
  | c :: _ => pyStrip c.text

/-- A Category row: not in the footer, and its first cell carries the
`tb_item` class marker (the footer membership check precedes the marker
checks in the loop). -/
def isCategoryRow (r : Row) : Bool :=
  !r.inFooter &&
    match r.cells with
    | [] => false
    | c :: _ => decide ("tb_item" ∈ c.classes)

/-- A SubItem row: not in the footer, first cell carries `tb_subitem` but
not `tb_item` (the `tb_item` branch is checked first). -/
def isSubItemRow (r : Row) : Bool :=
  !r.inFooter &&
    match r.cells with
    | [] => false
    | c :: _ => decide ("tb_item" ∉ c.classes) && decide ("tb_subitem" ∈ c.classes)

/-- The label of the most recent Category row of a row list, or the given
default when the list has none — the value `second_last_item` holds after
the loop has processed the list starting from `dflt`. -/
def lastCategoryLabel (dflt : String) : List Row → String
  | [] => dflt
  | r :: rs =>
    if isCategoryRow r then lastCategoryLabel (firstLabel r) rs
    else lastCategoryLabel dflt rs

/-- The classification cell the loop appends to a row, given the rows
processed before it and the initial `second_last_item` value `sli`. -/
def classifOf (sli : String) (pre : List Row) (r : Row) : String :=
  if r.inFooter then "Total"
  else if isCategoryRow r then firstLabel r
  else if isSubItemRow r then lastCategoryLabel sli pre
  else ""
/-! ## Extraction loop lemmas -/

theorem isCategoryRow_of_inFooter {r : Row} (h : r.inFooter = true) :
    isCategoryRow r = false := by
  simp [isCategoryRow, h]

theorem classifOf_cons (sli : String) (r : Row) (pre : List Row) (x : Row) :
    classifOf sli (r :: pre) x =
      classifOf (if isCategoryRow r then firstLabel r else sli) pre x := by
  by_cases hc : isCategoryRow r = true
  · simp [classifOf, lastCategoryLabel, hc]
  · simp only [Bool.not_eq_true] at hc
    simp [classifOf, lastCategoryLabel, hc]

theorem extractRows_spec (btn : String) :
    ∀ (rs : List Row) (cc sli : String) (out : List (List String)),
      extractRows btn cc sli rs = some out →
      out.length = rs.length ∧
      ∀ (j : Nat) (row : Row), rs[j]? = some row →
        out[j]? = some (row.cells.map (fun c => pyStrip c.text) ++
          [classifOf sli (rs.take j) row] ++ btnPart btn) := by
  intro rs
  induction rs with
  | nil =>
    intro cc sli out h
    simp only [extractRows, Option.some.injEq] at h
    subst h
    exact ⟨rfl, fun j row hj => by simp at hj⟩
  | cons r rest ih =>
    intro cc sli out h
    simp only [extractRows] at h
    split at h
    · -- footer row
      rename_i hf
      rw [Option.map_eq_some'] at h
      obtain ⟨out', hout', rfl⟩ := h
      obtain ⟨hlen, hspec⟩ := ih cc sli out' hout'
      have hf' : r.inFooter = true := hf
      refine ⟨by simp [hlen], ?_⟩
      intro j row hj
      match j with
      | 0 =>
        simp only [List.getElem?_cons_zero, Option.some.injEq] at hj
        subst hj
        simp [classifOf, hf']
      | j + 1 =>
        simp only [List.getElem?_cons_succ] at hj ⊢
        rw [hspec j row hj]
        simp [List.take_succ_cons, classifOf_cons, isCategoryRow_of_inFooter hf']
    · -- not footer: match on cells
      rename_i hf
      split at h
      · exact absurd h (by simp)
      · rename_i c0 cs hcell
        have hf' : r.inFooter = false := by
          revert hf; cases hr : r.inFooter <;> simp
        split at h
        · -- tb_item
          rename_i hit
          rw [Option.map_eq_some'] at h
          obtain ⟨out', hout', rfl⟩ := h
          obtain ⟨hlen, hspec⟩ := ih (pyStrip c0.text) (pyStrip c0.text) out' hout'
          have hcat : isCategoryRow r = true := by
            simp [isCategoryRow, hf', hcell, hit]
          refine ⟨by simp [hlen], ?_⟩
          intro j row hj
          match j with
          | 0 =>
            simp only [List.getElem?_cons_zero, Option.some.injEq] at hj
            subst hj
            simp [classifOf, hf', hcat, firstLabel, hcell]
          | j + 1 =>
            simp only [List.getElem?_cons_succ] at hj ⊢
            rw [hspec j row hj]
            simp [List.take_succ_cons, classifOf_cons, hcat, firstLabel, hcell]
        · rename_i hit
          have hncat : isCategoryRow r = false := by
            simp [isCategoryRow, hf', hcell]
            exact hit
          split at h
          · -- tb_subitem
            rename_i hsub
            rw [Option.map_eq_some'] at h
            obtain ⟨out', hout', rfl⟩ := h
            obtain ⟨hlen, hspec⟩ := ih cc sli out' hout'
            refine ⟨by simp [hlen], ?_⟩
            intro j row hj
            match j with
            | 0 =>
              simp only [List.getElem?_cons_zero, Option.some.injEq] at hj
              subst hj
              have hs : isSubItemRow r = true := by
                simp [isSubItemRow, hf', hcell, hit, hsub]
              simp [classifOf, hf', hncat, hs, lastCategoryLabel]
            | j + 1 =>
              simp only [List.getElem?_cons_succ] at hj ⊢
              rw [hspec j row hj]
              simp [List.take_succ_cons, classifOf_cons, hncat]
          · -- plain
            rename_i hsub
            rw [Option.map_eq_some'] at h
            obtain ⟨out', hout', rfl⟩ := h
            obtain ⟨hlen, hspec⟩ := ih cc sli out' hout'
            refine ⟨by simp [hlen], ?_⟩
            intro j row hj
            match j with
            | 0 =>
              simp only [List.getElem?_cons_zero, Option.some.injEq] at hj
              subst hj
              have hnsub : isSubItemRow r = false := by
                simp [isSubItemRow, hf', hcell, hit, hsub]
              simp [classifOf, hf', hncat, hnsub]
            | j + 1 =>
              simp only [List.getElem?_cons_succ] at hj ⊢
              rw [hspec j row hj]
              simp [List.take_succ_cons, classifOf_cons, hncat]

/-! ## Classification threading and totality -/

theorem isSubItemRow_inFooter {r : Row} (h : isSubItemRow r = true) :
    r.inFooter = false := by
  obtain ⟨cells, foot⟩ := r
  cases foot <;> simp_all [isSubItemRow]

theorem isSubItemRow_not_category {r : Row} (h : isSubItemRow r = true) :
    isCategoryRow r = false := by
  obtain ⟨cells, foot⟩ := r
  cases cells with
  | nil => simp_all [isSubItemRow, isCategoryRow]
  | cons c cs =>
    simp only [isSubItemRow, Bool.and_eq_true, decide_eq_true_eq] at h
    simp [isCategoryRow, h.2.1]

theorem lastCategoryLabel_eq_dflt :
    ∀ (l : List Row) (d : String), (∀ r ∈ l, isCategoryRow r = false) →
      lastCategoryLabel d l = d := by
  intro l
  induction l with
  | nil => intro d _; rfl
  | cons r rest ih =>
    intro d h
    have hr : isCategoryRow r = false := h r (List.mem_cons_self r rest)
    simp only [lastCategoryLabel, hr, Bool.false_eq_true, if_false]
    exact ih d (fun x hx => h x (List.mem_cons_of_mem r hx))

theorem lastCategoryLabel_of_last :
    ∀ (l : List Row) (d : String) (i : Nat) (row : Row),
      l[i]? = some row → isCategoryRow row = true →
      (∀ (k : Nat) (r' : Row), i < k → l[k]? = some r' → isCategoryRow r' = false) →
      lastCategoryLabel d l = firstLabel row := by
  intro l
  induction l with
  | nil => intro d i row hi; simp at hi
  | cons x xs ih =>
    intro d i row hi hcat hafter
    match i with
    | 0 =>
      simp only [List.getElem?_cons_zero, Option.some.injEq] at hi
      subst hi
      simp only [lastCategoryLabel, hcat, if_true]
      apply lastCategoryLabel_eq_dflt
      intro r hr
      obtain ⟨k, hk⟩ := List.mem_iff_getElem?.mp hr
      exact hafter (k + 1) r (Nat.succ_pos k) (by simpa using hk)
    | i + 1 =>
      simp only [List.getElem?_cons_succ] at hi
      have hafter' : ∀ (k : Nat) (r' : Row), i < k → xs[k]? = some r' →
          isCategoryRow r' = false := by
        intro k r' hik hk
        exact hafter (k + 1) r' (Nat.succ_lt_succ hik) (by simpa using hk)
      by_cases hx : isCategoryRow x = true
      · simp only [lastCategoryLabel, hx, if_true]
        exact ih (firstLabel x) i row hi hcat hafter'
      · simp only [Bool.not_eq_true] at hx
        simp only [lastCategoryLabel, hx, Bool.false_eq_true, if_false]
        exact ih d i row hi hcat hafter'

/-- Claim C4: in the record sequence produced by one table extraction, every
SubItem row S that follows a Category row R with no intervening Category row
receives R's first-cell label as its classification cell: its output row is
its stripped cell texts, then R's label, then the button cell when
configured. -/
theorem subitem_inherits_last_category
    (btn : String) (rs : List Row) (out : List (List String))
    (hex : extractRows btn "" "" rs = some out)
    (i j : Nat) (R S : Row) (hij : i < j)
    (hi : rs[i]? = some R) (hj : rs[j]? = some S)
    (hcat : isCategoryRow R = true)
    (hbetween : ∀ (k : Nat) (r' : Row), i < k → k < j → rs[k]? = some r' →
      isCategoryRow r' = false)
    (hsub : isSubItemRow S = true) :
    out[j]? = some (S.cells.map (fun c => pyStrip c.text) ++ [firstLabel R]
      ++ btnPart btn) := by
  obtain ⟨-, hspec⟩ := extractRows_spec btn rs "" "" out hex
  rw [hspec j S hj]
  have hclass : classifOf "" (rs.take j) S = firstLabel R := by
    rw [classifOf, if_neg (by simp [isSubItemRow_inFooter hsub]),
      if_neg (by simp [isSubItemRow_not_category hsub]),
      if_pos (by simp [hsub])]
    apply lastCategoryLabel_of_last (rs.take j) "" i R
    · rw [List.getElem?_take, if_pos hij]; exact hi
    · exact hcat
    · intro k r' hik hk
      rw [List.getElem?_take] at hk
      by_cases hkj : k < j
      · rw [if_pos hkj] at hk
        exact hbetween k r' hik hkj hk
      · rw [if_neg hkj] at hk
        exact absurd hk (by simp)
  rw [hclass]

/-- Claim C5: every row inside the table's footer section is tagged Total —
its classification cell is the literal `'Total'` — regardless of any
`tb_item` or `tb_subitem` markup on its cells, because the footer membership
check precedes the marker checks. -/
theorem footer_rows_tagged_total
    (btn cc sli : String) (rs : List Row) (out : List (List String))
    (hex : extractRows btn cc sli rs = some out)
    (j : Nat) (row : Row) (hj : rs[j]? = some row)
    (hfoot : row.inFooter = true) :
    out[j]? = some (row.cells.map (fun c => pyStrip c.text) ++ ["Total"]
      ++ btnPart btn) := by
  obtain ⟨-, hspec⟩ := extractRows_spec btn rs cc sli out hex
  rw [hspec j row hj]
  rw [classifOf, if_pos (by simp [hfoot])]

/-- Claim C8: a SubItem row with no preceding Category row receives the
empty string as its classification cell — the carried state is initialized
to `''` and the sub-item branch just appends the current value. -/
theorem subitem_before_any_category_gets_empty
    (btn : String) (rs : List Row) (out : List (List String))
    (hex : extractRows btn "" "" rs = some out)
    (j : Nat) (row : Row) (hj : rs[j]? = some row)
    (hsub : isSubItemRow row = true)
    (hnocat : ∀ (k : Nat) (r' : Row), k < j → rs[k]? = some r' →
      isCategoryRow r' = false) :
    out[j]? = some (row.cells.map (fun c => pyStrip c.text) ++ [""]
      ++ btnPart btn) := by
  obtain ⟨-, hspec⟩ := extractRows_spec btn rs "" "" out hex
  rw [hspec j row hj]
  have hclass : classifOf "" (rs.take j) row = "" := by
    rw [classifOf, if_neg (by simp [isSubItemRow_inFooter hsub]),
      if_neg (by simp [isSubItemRow_not_category hsub]),
      if_pos (by simp [hsub])]
    apply lastCategoryLabel_eq_dflt
    intro r hr
    obtain ⟨k, hk⟩ := List.mem_iff_getElem?.mp hr
    rw [List.getElem?_take] at hk
    by_cases hkj : k < j
    · rw [if_pos hkj] at hk
      exact hnocat k r hkj hk
    · rw [if_neg hkj] at hk
      exact absurd hk (by simp)
  rw [hclass]

theorem extractRows_total :
    ∀ (rs : List Row) (btn cc sli : String),
      (∀ r ∈ rs, r.inFooter = false → r.cells ≠ []) →
      ∃ out, extractRows btn cc sli rs = some out := by
  intro rs
  induction rs with
  | nil => exact fun btn cc sli _ => ⟨[], rfl⟩
  | cons r rest ih =>
    intro btn cc sli hall
    have hrest : ∀ x ∈ rest, x.inFooter = false → x.cells ≠ [] :=
      fun x hx => hall x (List.mem_cons_of_mem r hx)
    by_cases hf : r.inFooter = true
    · obtain ⟨out, hout⟩ := ih btn cc sli hrest
      exact ⟨_, by simp only [extractRows]; rw [if_pos hf, hout]; rfl⟩
    · have hf' : r.inFooter = false := by revert hf; cases r.inFooter <;> simp
      have hc := hall r (List.mem_cons_self r rest) hf'
      match hcell : r.cells with
      | [] => exact absurd hcell hc
      | c0 :: cs =>
        by_cases hit : "tb_item" ∈ c0.classes
        · obtain ⟨out, hout⟩ := ih btn (pyStrip c0.text) (pyStrip c0.text) hrest
          refine ⟨(r.cells.map (fun c => pyStrip c.text) ++ [pyStrip c0.text]
            ++ btnPart btn) :: out, ?_⟩
          simp [extractRows, hf', hcell, hit, hout]
        · by_cases hsub : "tb_subitem" ∈ c0.classes
          · obtain ⟨out, hout⟩ := ih btn cc sli hrest
            refine ⟨(r.cells.map (fun c => pyStrip c.text) ++ [sli]
              ++ btnPart btn) :: out, ?_⟩
            simp [extractRows, hf', hcell, hit, hsub, hout]
          · obtain ⟨out, hout⟩ := ih btn cc sli hrest
            refine ⟨(r.cells.map (fun c => pyStrip c.text) ++ [""]
              ++ btnPart btn) :: out, ?_⟩
            simp [extractRows, hf', hcell, hit, hsub, hout]

/-- Claim C9: the loop of `extract_table_data` indexes `cells[0]` on every
non-footer body row; when every such row has at least one `td` cell the
extraction is total, and a non-footer body row with zero cells makes it
fail (`IndexError`). -/
theorem first_cell_access_in_bounds :
    (∀ (btn cc sli : String) (rs : List Row),
      (∀ r ∈ rs, r.inFooter = false → r.cells ≠ []) →
      ∃ out, extractRows btn cc sli rs = some out) ∧
    extractRows "" "" "" [⟨[], false⟩] = none := by
  constructor
  · intro btn cc sli rs h
    exact extractRows_total rs btn cc sli h
  · rfl

/-- Witness for C9 at a concrete table: a two-row table whose non-footer
rows all have a first cell extracts successfully. -/
theorem first_cell_access_in_bounds_witness :
    (∃ out, extractRows "B" "" ""
      [⟨[⟨"x", ["tb_item"]⟩], false⟩, ⟨[], true⟩] = some out) ∧
    extractRows "" "" "" [⟨[], false⟩] = none :=
  ⟨first_cell_access_in_bounds.1 "B" "" "" _ (by decide),
   first_cell_access_in_bounds.2⟩

/-- Witness for C4 at a concrete two-row table: the sub-item row inherits
the label of the category row before it. -/
theorem subitem_inherits_last_category_witness :
    ([["Vinho", "Vinho", "B"], ["tinto", "Vinho", "B"]] : List (List String))[1]?
      = some ((⟨[⟨"tinto", ["tb_subitem"]⟩], false⟩ : Row).cells.map
          (fun c => pyStrip c.text)
        ++ [firstLabel ⟨[⟨" Vinho ", ["tb_item"]⟩], false⟩] ++ btnPart "B") :=
  subitem_inherits_last_category "B"
    [⟨[⟨" Vinho ", ["tb_item"]⟩], false⟩, ⟨[⟨"tinto", ["tb_subitem"]⟩], false⟩]
    [["Vinho", "Vinho", "B"], ["tinto", "Vinho", "B"]]
    (by decide) 0 1
    ⟨[⟨" Vinho ", ["tb_item"]⟩], false⟩ ⟨[⟨"tinto", ["tb_subitem"]⟩], false⟩
    (by decide) rfl rfl (by decide)
    (fun k r' h1 h2 _ => absurd (Nat.lt_of_lt_of_le h1 (Nat.le_of_lt_succ h2))
      (Nat.lt_irrefl 0))
    (by decide)

/-- Witness for C5 at a concrete footer row that even carries the `tb_item`
marker: it is still tagged Total. -/
theorem footer_rows_tagged_total_witness :
    ([["Total", "Total"]] : List (List String))[0]?
      = some ((⟨[⟨"Total", ["tb_item"]⟩], true⟩ : Row).cells.map
          (fun c => pyStrip c.text)
        ++ ["Total"] ++ btnPart "") :=
  footer_rows_tagged_total "" "" "" [⟨[⟨"Total", ["tb_item"]⟩], true⟩]
    [["Total", "Total"]] (by decide) 0 ⟨[⟨"Total", ["tb_item"]⟩], true⟩ rfl rfl

/-- Witness for C8 at a concrete table whose first body row is already a
sub-item row: its classification cell is the empty string. -/
theorem subitem_before_any_category_gets_empty_witness :
    ([["tinto", ""]] : List (List String))[0]?
      = some ((⟨[⟨"tinto", ["tb_subitem"]⟩], false⟩ : Row).cells.map
          (fun c => pyStrip c.text)
        ++ [""] ++ btnPart "") :=
  subitem_before_any_category_gets_empty "" [⟨[⟨"tinto", ["tb_subitem"]⟩], false⟩]
    [["tinto", ""]] (by decide) 0 ⟨[⟨"tinto", ["tb_subitem"]⟩], false⟩ rfl
    (by decide) (fun k r' hk => absurd hk (Nat.not_lt_zero k))

/-! ## Normalization lemmas -/

theorem pyUpperChar_idem (c : Char) : pyUpperChar (pyUpperChar c) = pyUpperChar c := by
  rcases hfind : upperTable.find? (fun q => q.1 = c) with - | u
  · simp [pyUpperChar, hfind]
  · have hmem := List.mem_of_find?_eq_some hfind
    have hvals : ∀ p ∈ upperTable,
        upperTable.find? (fun q => q.1 = p.2) = none := by decide
    have h1 : pyUpperChar c = u.2 := by simp [pyUpperChar, hfind]
    rw [h1]
    simp [pyUpperChar, hvals u hmem]

theorem uniTable_not_hit_of_upper {c : Char}
    (h : uniTable.find? (fun q => q.1 = c) = none) :
    uniTable.find? (fun q => q.1 = pyUpperChar c) = none := by
  rcases hfind : upperTable.find? (fun q => q.1 = c) with - | u
  · simpa [pyUpperChar, hfind] using h
  · have hmem := List.mem_of_find?_eq_some hfind
    have hvals : ∀ p ∈ upperTable,
        uniTable.find? (fun q => q.1 = p.2) = none := by decide
    have h1 : pyUpperChar c = u.2 := by simp [pyUpperChar, hfind]
    rw [h1]
    exact hvals u hmem

theorem unidecodeChar_fixed_of_upper_output {c d : Char}
    (hd : d ∈ (unidecodeChar c).data) :
    unidecodeChar (pyUpperChar d) = String.singleton (pyUpperChar d) := by
  rcases hfind : uniTable.find? (fun q => q.1 = c) with - | p
  · have : (unidecodeChar c).data = [c] := by simp [unidecodeChar, hfind, String.singleton]
    rw [this] at hd
    have hdc : d = c := by simpa using hd
    subst hdc
    simp [unidecodeChar, uniTable_not_hit_of_upper hfind]
  · have hmem := List.mem_of_find?_eq_some hfind
    have hp : (unidecodeChar c).data = p.2.data := by simp [unidecodeChar, hfind]
    rw [hp] at hd
    have hvals : ∀ q ∈ uniTable, ∀ e ∈ q.2.data,
        uniTable.find? (fun x => x.1 = pyUpperChar e) = none := by decide
    simp [unidecodeChar, hvals p hmem d hd]

theorem flatten_map_singleton : ∀ (l : List Char), (l.map (fun a => [a])).flatten = l
  | [] => rfl
  | a :: l => by simp [flatten_map_singleton l]

theorem unidecodeStr_fixed_of_chars {l : List Char}
    (h : ∀ e ∈ l, unidecodeChar e = String.singleton e) :
    unidecodeStr ⟨l⟩ = ⟨l⟩ := by
  unfold unidecodeStr
  have : l.map (fun c => (unidecodeChar c).data) = l.map (fun a => [a]) := by
    apply List.map_congr_left
    intro e he
    rw [h e he]
    rfl
  rw [show (⟨l⟩ : String).data = l from rfl, this, flatten_map_singleton]

theorem upper_unidecode_fixed (s : String) :
    pyUpper (unidecodeStr (pyUpper (unidecodeStr s))) = pyUpper (unidecodeStr s) := by
  have hchars : ∀ e ∈ (pyUpper (unidecodeStr s)).data,
      unidecodeChar e = String.singleton e ∧ pyUpperChar e = e := by
    intro e he
    have hdata : (pyUpper (unidecodeStr s)).data
        = (unidecodeStr s).data.map pyUpperChar := rfl
    rw [hdata, List.mem_map] at he
    obtain ⟨d, hd, rfl⟩ := he
    have hdflat : (unidecodeStr s).data
        = (s.data.map (fun c => (unidecodeChar c).data)).flatten := rfl
    rw [hdflat, List.mem_flatten] at hd
    obtain ⟨ld, hld, hdld⟩ := hd
    rw [List.mem_map] at hld
    obtain ⟨c, -, rfl⟩ := hld
    exact ⟨unidecodeChar_fixed_of_upper_output hdld, pyUpperChar_idem d⟩
  have h1 : unidecodeStr (pyUpper (unidecodeStr s)) = pyUpper (unidecodeStr s) := by
    have := unidecodeStr_fixed_of_chars (l := (pyUpper (unidecodeStr s)).data)
      (fun e he => (hchars e he).1)
    simpa using this
  rw [h1]
  have h2 : (pyUpper (unidecodeStr s)).data.map pyUpperChar
      = (pyUpper (unidecodeStr s)).data :=
    List.map_congr_left (fun e he => (hchars e he).2) |>.trans
      (List.map_id _)
  show (⟨(pyUpper (unidecodeStr s)).data.map pyUpperChar⟩ : String)
      = pyUpper (unidecodeStr s)
  rw [h2]

/-- Claim C10 counterexample: text normalization is not idempotent.  The
string `"–"` (Unicode EN DASH) is not the ASCII `"-"`, so the first pass
transliterates it to `"-"`; the second pass then rewrites `"-"` to `"0"`. -/
theorem normalize_text_not_idempotent :
    normalize_text (normalize_text (Value.str "–")) ≠ normalize_text (Value.str "–") := by
  decide

/-- Claim C10 (amended): `normalize_text` is idempotent on every value whose
normalized form does not itself trim to a bare `"-"` or `"*"` — in
particular a value rewritten to `"0"` stays `"0"`, every non-string value
is a fixed point, and a diacritic-free upper-case string is a fixed point
of the strip-and-uppercase branch.  It fails only for strings (such as the
Unicode dashes) that are not trimmed `"-"`/`"*"` themselves but whose
transliteration is. -/
theorem normalize_text_idempotent_unless_sentinel_created (v : Value)
    (h : ∀ u : String, normalize_text v = .str u →
      pyStrip u ≠ "-" ∧ pyStrip u ≠ "*") :
    normalize_text (normalize_text v) = normalize_text v := by
  match v with
  | .int n => rfl
  | .nan => rfl
  | .str s =>
    by_cases hs : pyStrip s = "-" ∨ pyStrip s = "*"
    · have h0 : normalize_text (Value.str s) = .str "0" := by
        simp [normalize_text, hs]
      rw [h0]
      decide
    · have h1 : normalize_text (Value.str s) = .str (pyUpper (unidecodeStr s)) := by
        simp [normalize_text, hs]
      obtain ⟨hu1, hu2⟩ := h (pyUpper (unidecodeStr s)) h1
      rw [h1]
      simp only [normalize_text]
      rw [if_neg (by tauto), upper_unidecode_fixed]

/-- Witness for the amended C10: normalization of `"café"` is a fixed
point of a second normalization pass. -/
theorem normalize_text_idempotent_unless_sentinel_created_witness :
    normalize_text (normalize_text (Value.str "café")) = normalize_text (Value.str "café") :=
  normalize_text_idempotent_unless_sentinel_created (Value.str "café")
    (fun u hu => by
      rw [show normalize_text (Value.str "café") = Value.str "CAFE" from by decide] at hu
      injection hu with h
      subst h
      decide)

/-- Claim C3: the field normalizer rewrites every string whose trimmed
value is exactly `"-"` or `"*"` to `"0"`, transliterates and upper-cases
every other string, passes non-text values through unchanged, and
`clean_data` applies it to every cell of the frame with no column exempt;
normalizing `"café"` yields `"CAFE"`. -/
theorem field_normalizer_contract :
    (∀ s : String, pyStrip s = "-" ∨ pyStrip s = "*" →
      normalize_text (.str s) = .str "0") ∧
    (∀ s : String, ¬(pyStrip s = "-" ∨ pyStrip s = "*") →
      normalize_text (.str s) = .str (pyUpper (unidecodeStr s))) ∧
    normalize_text (.str "café") = .str "CAFE" ∧
    (∀ n : Int, normalize_text (.int n) = .int n) ∧
    normalize_text .nan = .nan ∧
    (∀ df : DataFrame, clean_data df
      = ⟨df.headers, df.rows.map (fun r => r.map normalize_text)⟩) := by
  refine ⟨?_, ?_, by decide, fun n => rfl, rfl, fun df => rfl⟩
  · intro s hs
    simp [normalize_text, hs]
  · intro s hs
    simp [normalize_text, hs]

/-- Witness for C3: the sentinel and transliteration branches at concrete
inputs, and `clean_data` normalizing every cell of a concrete frame. -/
theorem field_normalizer_contract_witness :
    normalize_text (.str " - ") = .str "0" ∧
    normalize_text (.str "uva") = .str (pyUpper (unidecodeStr "uva")) ∧
    clean_data ⟨["A", "Ano"], [[Value.str "café", Value.int 2020],
      [Value.str " * ", Value.nan]]⟩
      = ⟨["A", "Ano"], [[Value.str "CAFE", Value.int 2020],
        [Value.str "0", Value.nan]]⟩ := by
  have h := field_normalizer_contract
  exact ⟨h.1 " - " (by decide), h.2.1 "uva" (by decide),
    by rw [h.2.2.2.2.2]; decide⟩

/-- Claim C2: the numeric coercion treats the cell as text, removes the
thousands-separator dots and parses an integer, substituting zero on parse
failure: `"1.234"` coerces to `1234`, `""` and `"n/d"` coerce to `0`; and
applying the coercion chain to a designated column never rejects a row —
every row survives with its designated cell replaced by the coerced
integer. -/
theorem numeric_coercion_contract :
    coerceCell (.str "1.234") = 1234 ∧
    coerceCell (.str "") = 0 ∧
    coerceCell (.str "n/d") = 0 ∧
    (∀ (df : DataFrame), "Quantidade" ∈ df.headers →
      ∃ out, coerceIntColumn df "Quantidade" = some out ∧
        out.headers = df.headers ∧
        out.rows.length = df.rows.length ∧
        ∀ (j : Nat) (r : List Value), df.rows[j]? = some r →
          out.rows[j]? = some (r.set (df.headers.indexOf "Quantidade")
            (Value.int (coerceCell
              (r.getD (df.headers.indexOf "Quantidade") Value.nan))))) := by
  refine ⟨by decide, by decide, by decide, ?_⟩
  intro df hmem
  refine ⟨⟨df.headers, df.rows.map (fun r =>
      r.set (df.headers.indexOf "Quantidade")
        (Value.int (coerceCell
          (r.getD (df.headers.indexOf "Quantidade") Value.nan))))⟩,
    ?_, rfl, by simp, ?_⟩
  · rw [coerceIntColumn, if_pos hmem]
  · intro j r hj
    simp [List.getElem?_map, hj]

/-- Witness for C2: the coercion chain on a concrete two-row frame keeps
both rows and coerces `"1.234"` to `1234` and `"n/d"` to `0`. -/
theorem numeric_coercion_contract_witness :
    coerceCell (.str "1.234") = 1234 ∧
    (∃ out, coerceIntColumn
        ⟨["Produto", "Quantidade"],
         [[Value.str "VINHO", Value.str "1.234"],
          [Value.str "SUCO", Value.str "n/d"]]⟩ "Quantidade" = some out ∧
      out.headers = ["Produto", "Quantidade"] ∧
      out.rows.length = 2 ∧
      ∀ (j : Nat) (r : List Value),
        ([[Value.str "VINHO", Value.str "1.234"],
          [Value.str "SUCO", Value.str "n/d"]] : List (List Value))[j]? = some r →
        out.rows[j]? = some (r.set
          ((["Produto", "Quantidade"] : List String).indexOf "Quantidade")
          (Value.int (coerceCell
            (r.getD ((["Produto", "Quantidade"] : List String).indexOf "Quantidade")
              Value.nan))))) :=
  ⟨numeric_coercion_contract.1,
   numeric_coercion_contract.2.2.2
     ⟨["Produto", "Quantidade"],
      [[Value.str "VINHO", Value.str "1.234"],
       [Value.str "SUCO", Value.str "n/d"]]⟩ (by decide)⟩

/-- Claim C1: where a transform runs, its output contains no identifying
TOTAL row — every Production/Commercialization output row satisfies
`Produto ≠ 'TOTAL' ∨ Classificação ≠ 'TOTAL'` (so the footer-materialized
rows, which have both cells `'TOTAL'`, are dropped), and the body of the
Export transform keeps only rows with `Países ≠ 'TOTAL'`.  However the
Export, Import and Processing transforms never reach their filter: their
first statement `super().transform_dados()` raises `AttributeError`, since
`WebScraper` defines no `transform_dados`, so they produce no output at
all. -/
theorem total_rows_dropped_by_transforms :
    (∀ (df out : DataFrame), transform_dados_producao df = some out →
      ∀ r ∈ out.rows,
        getCell out.headers r "Produto" ≠ Value.str "TOTAL" ∨
        getCell out.headers r "Classificação" ≠ Value.str "TOTAL") ∧
    (∀ (df out : DataFrame), transform_dados_comercializacao df = some out →
      ∀ r ∈ out.rows,
        getCell out.headers r "Produto" ≠ Value.str "TOTAL" ∨
        getCell out.headers r "Classificação" ≠ Value.str "TOTAL") ∧
    (∀ (df out : DataFrame), transform_dados_exportacao_body df = some out →
      ∀ r ∈ out.rows, getCell out.headers r "Países" ≠ Value.str "TOTAL") ∧
    (∀ df : DataFrame, transform_dados_exportacao df = none) ∧
    (∀ df : DataFrame, transform_dados_importacao df = none) ∧
    (∀ df : DataFrame, transform_dados_processamento df = none) := by
  refine ⟨?_, ?_, ?_, fun _ => rfl, fun _ => rfl, fun _ => rfl⟩
  · intro df out h r hr
    simp only [transform_dados_producao] at h
    split at h
    · exact absurd h (by simp)
    · split at h
      · exact absurd h (by simp)
      · rename_i df3 h3 df4 h4
        rw [Option.some.injEq] at h
        subst h
        simp only at hr
        rw [List.mem_filter] at hr
        have := hr.2
        rw [Bool.or_eq_true, Bool.not_eq_true', Bool.not_eq_true'] at this
        rcases this with h' | h'
        · exact Or.inl (by simpa using h')
        · exact Or.inr (by simpa using h')
  · intro df out h r hr
    simp only [transform_dados_comercializacao] at h
    split at h
    · exact absurd h (by simp)
    · split at h
      · exact absurd h (by simp)
      · rename_i df3 h3 df4 h4
        rw [Option.some.injEq] at h
        subst h
        simp only at hr
        rw [List.mem_filter] at hr
        have := hr.2
        rw [Bool.or_eq_true, Bool.not_eq_true', Bool.not_eq_true'] at this
        rcases this with h' | h'
        · exact Or.inl (by simpa using h')
        · exact Or.inr (by simpa using h')
  · intro df out h r hr
    simp only [transform_dados_exportacao_body] at h
    split at h
    · exact absurd h (by simp)
    · split at h
      · exact absurd h (by simp)
      · split at h
        · exact absurd h (by simp)
        · rename_i df3 h3 df4 h4 df5 h5
          rw [Option.some.injEq] at h
          subst h
          simp only at hr
          rw [List.mem_filter] at hr
          have := hr.2
          rw [Bool.or_eq_true, Bool.not_eq_true'] at this
          rcases this with h' | h' <;> simpa using h'

/-- Witness for C1: the Production transform on the spec's end-to-end
example frame keeps the data rows (whose cells are not both TOTAL) while
the footer row is dropped, and the Export transform fails on any frame. -/
theorem total_rows_dropped_by_transforms_witness :
    (getCell ["Produto", "Classificação", "Ano", "Quantidade"]
        [Value.str "VINHO DE MESA", Value.str "VINHO DE MESA",
         Value.int 2022, Value.int 10000] "Produto" ≠ Value.str "TOTAL" ∨
     getCell ["Produto", "Classificação", "Ano", "Quantidade"]
        [Value.str "VINHO DE MESA", Value.str "VINHO DE MESA",
         Value.int 2022, Value.int 10000] "Classificação" ≠ Value.str "TOTAL") ∧
    transform_dados_exportacao ⟨[], []⟩ = none :=
  ⟨total_rows_dropped_by_transforms.1
    ⟨["Produto", "Quantidade (L.)", "Classificação", "Ano"],
     [[Value.str "VINHO DE MESA", Value.str "10.000",
       Value.str "VINHO DE MESA", Value.int 2022],
      [Value.str "tinto", Value.str "4.000",
       Value.str "VINHO DE MESA", Value.int 2022],
      [Value.str "Total", Value.str "14.000", Value.str "Total", Value.int 2022]]⟩
    ⟨["Produto", "Classificação", "Ano", "Quantidade"],
     [[Value.str "VINHO DE MESA", Value.str "VINHO DE MESA",
       Value.int 2022, Value.int 10000],
      [Value.str "TINTO", Value.str "VINHO DE MESA",
       Value.int 2022, Value.int 4000]]⟩
    (by decide)
    [Value.str "VINHO DE MESA", Value.str "VINHO DE MESA",
     Value.int 2022, Value.int 10000]
    (by decide),
   total_rows_dropped_by_transforms.2.2.2.1 ⟨[], []⟩⟩

/-! ## Concatenation and stamping lemmas -/

theorem rowAlign_self (hs : List String) (hnd : hs.Nodup) (r : List Value)
    (hlen : r.length = hs.length) : rowAlign hs hs r = r := by
  apply List.ext_getElem
  · simp [rowAlign, hlen]
  · intro i h1 h2
    simp only [rowAlign, List.getElem_map]
    have hmem : hs[i] ∈ hs := List.getElem_mem _
    rw [if_pos (by simp [hmem])]
    have hidx : hs.indexOf hs[i] = i := by
      have hlt : hs.indexOf hs[i] < hs.length :=
        List.indexOf_lt_length.mpr hmem
      have := List.getElem_indexOf hlt
      exact hnd.getElem_inj_iff.mp this
    rw [hidx, List.getD_eq_getElem?_getD,
      List.getElem?_eq_getElem h2]
    rfl

theorem pdConcat_same (hs : List String) (hnd : hs.Nodup) (a b : DataFrame)
    (ha : a.headers = hs) (hb : b.headers = hs)
    (har : ∀ r ∈ a.rows, r.length = hs.length)
    (hbr : ∀ r ∈ b.rows, r.length = hs.length) :
    pdConcat a b = ⟨hs, a.rows ++ b.rows⟩ := by
  simp only [pdConcat, ha, hb]
  have hfil : hs.filter (fun h => !hs.contains h) = [] := by
    apply List.filter_eq_nil_iff.mpr
    intro x hx
    simp [hx]
  rw [hfil, List.append_nil]
  congr 1
  · rw [List.map_congr_left (fun r hr => rowAlign_self hs hnd r (har r hr)),
      List.map_id', List.map_congr_left (fun r hr => rowAlign_self hs hnd r (hbr r hr)),
      List.map_id']

theorem pdConcat_empty_left (b : DataFrame) (hnd : b.headers.Nodup)
    (hbr : ∀ r ∈ b.rows, r.length = b.headers.length) :
    pdConcat ⟨[], []⟩ b = b := by
  simp only [pdConcat]
  have hfil : b.headers.filter (fun h => !([] : List String).contains h)
      = b.headers := by
    apply List.filter_eq_self.mpr
    intro x hx
    simp
  rw [hfil]
  simp only [List.nil_append, List.map_nil]
  rw [List.map_congr_left (fun r hr => rowAlign_self b.headers hnd r (hbr r hr)),
    List.map_id']

theorem foldl_max_init_le : ∀ (l : List Nat) (a : Nat), a ≤ l.foldl max a
  | [], _ => le_refl _
  | b :: l, a => le_trans (le_max_left a b) (foldl_max_init_le l (max a b))

theorem le_foldl_max : ∀ (l : List Nat) (a x : Nat), x ∈ l → x ≤ l.foldl max a
  | [], _, _, hx => absurd hx (List.not_mem_nil _)
  | b :: l, a, x, hx => by
    rcases List.mem_cons.mp hx with rfl | hx
    · exact le_trans (le_max_right a x) (foldl_max_init_le l (max a x))
    · exact le_foldl_max l (max a b) x hx

theorem mkDataFrame_rect (rows : List (List String)) (headers : List String)
    (df : DataFrame) (h : mkDataFrame rows headers = some df) :
    df.headers = headers ∧ ∀ r ∈ df.rows, r.length = headers.length := by
  match rows with
  | [] =>
    simp only [mkDataFrame, Option.some.injEq] at h
    subst h
    exact ⟨rfl, by simp⟩
  | r0 :: rest =>
    simp only [mkDataFrame] at h
    split at h
    · rename_i hw
      rw [Option.some.injEq] at h
      subst h
      refine ⟨rfl, ?_⟩
      intro r hr
      rw [List.mem_map] at hr
      obtain ⟨x, hx, rfl⟩ := hr
      have hxle : x.length ≤ headers.length := by
        rw [← hw]
        exact le_foldl_max _ 0 x.length (List.mem_map_of_mem List.length hx)
      simp [Nat.add_sub_cancel' hxle]
    · exact absurd h (by simp)

theorem extract_table_data_rect (t : Table) (btn : String) (df : DataFrame)
    (h : extract_table_data t btn = some df) :
    ∀ r ∈ df.rows, r.length = df.headers.length := by
  simp only [extract_table_data] at h
  split at h
  · exact absurd h (by simp)
  · rename_i rows hrows
    obtain ⟨hh, hr⟩ := mkDataFrame_rect _ _ _ h
    rw [hh]
    exact hr

theorem setColumn_rect (df : DataFrame) (name : String) (v : Value)
    (h : ∀ r ∈ df.rows, r.length = df.headers.length) :
    ∀ r' ∈ (setColumn df name v).rows,
      r'.length = (setColumn df name v).headers.length := by
  simp only [setColumn]
  split
  · intro r' hr'
    rw [List.mem_map] at hr'
    obtain ⟨r, hr, rfl⟩ := hr'
    simp [h r hr]
  · intro r' hr'
    rw [List.mem_map] at hr'
    obtain ⟨r, hr, rfl⟩ := hr'
    simp [h r hr]

theorem setColumn_stamps (df : DataFrame) (name : String) (v : Value)
    (h : ∀ r ∈ df.rows, r.length = df.headers.length) :
    ∀ r' ∈ (setColumn df name v).rows,
      r'.getD ((setColumn df name v).headers.indexOf name) Value.nan = v := by
  simp only [setColumn]
  split
  · rename_i hmem
    intro r' hr'
    rw [List.mem_map] at hr'
    obtain ⟨r, hr, rfl⟩ := hr'
    have hlt : df.headers.indexOf name < r.length := by
      rw [h r hr]
      exact List.indexOf_lt_length.mpr hmem
    simp only [List.getD_eq_getElem?_getD]
    rw [List.getElem?_set_self hlt]
    rfl
  · rename_i hmem
    intro r' hr'
    rw [List.mem_map] at hr'
    obtain ⟨r, hr, rfl⟩ := hr'
    have hidx : (df.headers ++ [name]).indexOf name = df.headers.length := by
      rw [List.indexOf_append_of_not_mem hmem, List.indexOf_cons_self,
        Nat.add_zero]
    rw [hidx, List.getD_eq_getElem?_getD,
      List.getElem?_append_right (by rw [h r hr]),
      h r hr, Nat.sub_self]
    rfl

theorem stampedFrame_props (fetchDoc : Nat → Option Button → Document)
    (y : Nat) (b : Option Button) (sf : DataFrame)
    (h : stampedFrame fetchDoc y b = some sf) :
    (∀ r ∈ sf.rows, r.length = sf.headers.length) ∧
    (∀ r ∈ sf.rows, r.getD (sf.headers.indexOf "Year") Value.nan = Value.int y) := by
  simp only [stampedFrame] at h
  split at h
  · exact absurd h (by simp)
  · rename_i table htab
    split at h
    · exact absurd h (by simp)
    · rename_i df hdf
      rw [Option.some.injEq] at h
      subst h
      have hrect := extract_table_data_rect table _ df hdf
      exact ⟨setColumn_rect df "Year" (Value.int y) hrect,
        setColumn_stamps df "Year" (Value.int y) hrect⟩

theorem stepCombo_decomp (fetchDoc : Nat → Option Button → Document)
    (data : DataFrame) (y : Nat) (b : Option Button) (d' : DataFrame)
    (hs : List String) (hnd : hs.Nodup)
    (hok : stampedHeadersOK fetchDoc hs y b = true)
    (hdata : data = ⟨[], []⟩ ∨
      (data.headers = hs ∧ ∀ r ∈ data.rows, r.length = hs.length))
    (h : stepCombo fetchDoc data y b = some d') :
    ∃ extra, d'.rows = data.rows ++ extra ∧
      (∀ r ∈ extra, r.length = hs.length ∧
        r.getD (hs.indexOf "Year") Value.nan = Value.int y) ∧
      (d' = ⟨[], []⟩ ∨
        (d'.headers = hs ∧ ∀ r ∈ d'.rows, r.length = hs.length)) := by
  simp only [stepCombo] at h
  split at h
  · rename_i htab
    rw [Option.some.injEq] at h
    subst h
    exact ⟨[], by simp, by simp, hdata⟩
  · rename_i table htab
    split at h
    · exact absurd h (by simp)
    · rename_i df hdf
      rw [Option.some.injEq] at h
      subst h
      have hsf : stampedFrame fetchDoc y b
          = some (setColumn df "Year" (Value.int y)) := by
        simp only [stampedFrame, htab, hdf]
      have hhead : (setColumn df "Year" (Value.int y)).headers = hs := by
        have := hok
        rw [stampedHeadersOK, hsf] at this
        exact beq_iff_eq.mp this
      obtain ⟨hrect, hstamp⟩ := stampedFrame_props fetchDoc y b _ hsf
      have hrect' : ∀ r ∈ (setColumn df "Year" (Value.int y)).rows,
          r.length = hs.length := fun r hr => by
        rw [← hhead]; exact hrect r hr
      have hstamp' : ∀ r ∈ (setColumn df "Year" (Value.int y)).rows,
          r.getD (hs.indexOf "Year") Value.nan = Value.int y := fun r hr => by
        rw [← hhead]; exact hstamp r hr
      rcases hdata with rfl | ⟨hdh, hdr⟩
      · rw [pdConcat_empty_left _ (hhead ▸ hnd) hrect]
        refine ⟨(setColumn df "Year" (Value.int y)).rows, by simp, ?_, ?_⟩
        · exact fun r hr => ⟨hrect' r hr, hstamp' r hr⟩
        · exact Or.inr ⟨hhead, hrect'⟩
      · rw [pdConcat_same hs hnd data _ hdh hhead hdr hrect']
        refine ⟨(setColumn df "Year" (Value.int y)).rows, rfl, ?_, ?_⟩
        · exact fun r hr => ⟨hrect' r hr, hstamp' r hr⟩
        · refine Or.inr ⟨rfl, ?_⟩
          intro r hr
          rcases List.mem_append.mp hr with h1 | h1
          · exact hdr r h1
          · exact hrect' r h1

theorem foldButtons_decomp (fetchDoc : Nat → Option Button → Document)
    (y : Nat) (hs : List String) (hnd : hs.Nodup) :
    ∀ (bs : List Button) (data d' : DataFrame),
      (∀ b ∈ bs, stampedHeadersOK fetchDoc hs y (some b) = true) →
      (data = ⟨[], []⟩ ∨
        (data.headers = hs ∧ ∀ r ∈ data.rows, r.length = hs.length)) →
      bs.foldlM (fun d b => stepCombo fetchDoc d y (some b)) data = some d' →
      ∃ extra, d'.rows = data.rows ++ extra ∧
        (∀ r ∈ extra, r.length = hs.length ∧
          r.getD (hs.indexOf "Year") Value.nan = Value.int y) ∧
        (d' = ⟨[], []⟩ ∨
          (d'.headers = hs ∧ ∀ r ∈ d'.rows, r.length = hs.length)) := by
  intro bs
  induction bs with
  | nil =>
    intro data d' _ hdata h
    simp only [List.foldlM_nil] at h
    rw [show (pure data : Option DataFrame) = some data from rfl,
      Option.some.injEq] at h
    subst h
    exact ⟨[], by simp, by simp, hdata⟩
  | cons b bs ih =>
    intro data d' hok hdata h
    rw [List.foldlM_cons] at h
    rcases hstep : stepCombo fetchDoc data y (some b) with - | d1
    · rw [hstep] at h
      exact absurd h (by simp [Bind.bind])
    · rw [hstep] at h
      have h' : bs.foldlM (fun d b => stepCombo fetchDoc d y (some b)) d1
          = some d' := h
      obtain ⟨e1, he1, hp1, hinv1⟩ := stepCombo_decomp fetchDoc data y (some b)
        d1 hs hnd (hok b (List.mem_cons_self b bs)) hdata hstep
      obtain ⟨e2, he2, hp2, hinv2⟩ := ih d1 d'
        (fun x hx => hok x (List.mem_cons_of_mem b hx)) hinv1 h'
      refine ⟨e1 ++ e2, ?_, ?_, hinv2⟩
      · rw [he2, he1, List.append_assoc]
      · intro r hr
        rcases List.mem_append.mp hr with h1 | h1
        · exact hp1 r h1
        · exact hp2 r h1

theorem stepYear_decomp (fetchDoc : Nat → Option Button → Document)
    (buttons : List Button) (y : Nat) (hs : List String) (hnd : hs.Nodup)
    (data d' : DataFrame)
    (hok0 : buttons.isEmpty = true → stampedHeadersOK fetchDoc hs y none = true)
    (hok1 : ∀ b ∈ buttons, stampedHeadersOK fetchDoc hs y (some b) = true)
    (hdata : data = ⟨[], []⟩ ∨
      (data.headers = hs ∧ ∀ r ∈ data.rows, r.length = hs.length))
    (h : stepYear fetchDoc buttons data y = some d') :
    ∃ extra, d'.rows = data.rows ++ extra ∧
      (∀ r ∈ extra, r.length = hs.length ∧
        r.getD (hs.indexOf "Year") Value.nan = Value.int y) ∧
      (d' = ⟨[], []⟩ ∨
        (d'.headers = hs ∧ ∀ r ∈ d'.rows, r.length = hs.length)) := by
  rw [stepYear] at h
  split at h
  · rename_i hempty
    exact stepCombo_decomp fetchDoc data y none d' hs hnd (hok0 hempty) hdata h
  · exact foldButtons_decomp fetchDoc y hs hnd buttons data d' hok1 hdata h

theorem foldYears_decomp (fetchDoc : Nat → Option Button → Document)
    (buttons : List Button) (hs : List String) (hnd : hs.Nodup) :
    ∀ (ys : List Nat) (data acc : DataFrame),
      (∀ y ∈ ys,
        (buttons.isEmpty = true → stampedHeadersOK fetchDoc hs y none = true) ∧
        ∀ b ∈ buttons, stampedHeadersOK fetchDoc hs y (some b) = true) →
      (data = ⟨[], []⟩ ∨
        (data.headers = hs ∧ ∀ r ∈ data.rows, r.length = hs.length)) →
      ys.foldlM (fun d y => stepYear fetchDoc buttons d y) data = some acc →
      ∃ blocks : List (List (List Value)),
        blocks.length = ys.length ∧
        acc.rows = data.rows ++ blocks.flatten ∧
        ∀ (j : Nat) (y : Nat) (bl : List (List Value)),
          ys[j]? = some y → blocks[j]? = some bl →
          ∀ r ∈ bl, r.length = hs.length ∧
            r.getD (hs.indexOf "Year") Value.nan = Value.int y := by
  intro ys
  induction ys with
  | nil =>
    intro data acc _ hdata h
    simp only [List.foldlM_nil] at h
    rw [show (pure data : Option DataFrame) = some data from rfl,
      Option.some.injEq] at h
    subst h
    exact ⟨[], rfl, by simp, fun j y bl hy hbl => by simp at hbl⟩
  | cons y ys ih =>
    intro data acc hok hdata h
    rw [List.foldlM_cons] at h
    rcases hstep : stepYear fetchDoc buttons data y with - | d1
    · rw [hstep] at h
      exact absurd h (by simp [Bind.bind])
    · rw [hstep] at h
      have h' : ys.foldlM (fun d y => stepYear fetchDoc buttons d y) d1
          = some acc := h
      have hoky := hok y (List.mem_cons_self y ys)
      obtain ⟨e1, he1, hp1, hinv1⟩ := stepYear_decomp fetchDoc buttons y hs hnd
        data d1 hoky.1 hoky.2 hdata hstep
      obtain ⟨blocks, hblen, hbrows, hbprop⟩ := ih d1 acc
        (fun x hx => hok x (List.mem_cons_of_mem y hx)) hinv1 h'
      refine ⟨e1 :: blocks, by simp [hblen], ?_, ?_⟩
      · rw [hbrows, he1, List.flatten_cons, List.append_assoc]
      · intro j yy bl hy hbl
        match j with
        | 0 =>
          simp only [List.getElem?_cons_zero, Option.some.injEq] at hy hbl
          subst hy
          subst hbl
          exact hp1
        | j + 1 =>
          simp only [List.getElem?_cons_succ] at hy hbl
          exact hbprop j yy bl hy hbl

/-- Claim C6: the scraping loop accumulates records years-outer,
buttons-inner (single pass per year when the button list is empty),
stamping every record with its source year before appending.  When all
contributed frames share one header list, a successful run's final rows
split into one block per year, in year-list order, and every record of a
year's block carries that year in its `'Year'` column — in particular for
years `[2020, 2021]` all of 2020's records precede all of 2021's.  The
claim's end-to-end reading fails on the source, however: `run_scraping`
obtains the button list from `self.get_buttons()`, which raises
`NotImplementedError` on every scraper because no subclass overrides it
(they define `get_botoes`), so the theorem takes the intended button list
as a parameter and records the wiring failure as `get_buttons_WebScraper
= none`. -/
theorem run_scraping_accumulates_in_year_order
    (years : List Nat) (buttons : List Button)
    (fetchDoc : Nat → Option Button → Document) (hs : List String)
    (hnd : hs.Nodup)
    (hok : ∀ y ∈ years,
      (buttons.isEmpty = true → stampedHeadersOK fetchDoc hs y none = true) ∧
      ∀ b ∈ buttons, stampedHeadersOK fetchDoc hs y (some b) = true)
    (dfF : DataFrame)
    (hrun : run_scraping years buttons fetchDoc = some dfF) :
    get_buttons_WebScraper = none ∧
    ∃ blocks : List (List (List Value)),
      blocks.length = years.length ∧
      dfF.rows = blocks.flatten ∧
      ∀ (j y : Nat) (bl : List (List Value)),
        years[j]? = some y → blocks[j]? = some bl →
        ∀ r ∈ bl, r.getD (hs.indexOf "Year") Value.nan = Value.int y := by
  refine ⟨rfl, ?_⟩
  rw [run_scraping, Option.map_eq_some'] at hrun
  obtain ⟨acc, hacc, rfl⟩ := hrun
  obtain ⟨blocks, hblen, hbrows, hbprop⟩ := foldYears_decomp fetchDoc buttons
    hs hnd years ⟨[], []⟩ acc hok (Or.inl rfl) hacc
  refine ⟨blocks.map (fun bl => bl.map (fun r => r.map normalize_text)),
    by simp [hblen], ?_, ?_⟩
  · show (clean_data acc).rows = _
    simp only [clean_data]
    rw [hbrows]
    simp [List.map_flatten]
  · intro j y bl' hy hbl'
    rw [List.getElem?_map] at hbl'
    rcases hblj : blocks[j]? with - | bl
    · rw [hblj] at hbl'
      exact absurd hbl' (by simp)
    · rw [hblj] at hbl'
      simp only [Option.map_some', Option.some.injEq] at hbl'
      subst hbl'
      intro r' hr'
      rw [List.mem_map] at hr'
      obtain ⟨r, hr, rfl⟩ := hr'
      obtain ⟨hrl, hry⟩ := hbprop j y bl hy hblj r hr
      by_cases hidx : hs.indexOf "Year" < r.length
      · rw [List.getD_eq_getElem?_getD, List.getElem?_map,
          List.getElem?_eq_getElem hidx]
        have hcell : r[hs.indexOf "Year"] = Value.int y := by
          rw [List.getD_eq_getElem?_getD,
            List.getElem?_eq_getElem hidx] at hry
          exact hry
        rw [hcell]
        rfl
      · exfalso
        rw [List.getD_eq_getElem?_getD,
          List.getElem?_eq_none (Nat.le_of_not_lt hidx)] at hry
        exact absurd hry (by simp)

/-- Witness for C6: a concrete two-year, no-button run in which 2020's
records precede 2021's and every record is stamped with its own year. -/
theorem run_scraping_accumulates_in_year_order_witness :
    get_buttons_WebScraper = none ∧
    ∃ blocks : List (List (List Value)),
      blocks.length = ([2020, 2021] : List Nat).length ∧
      (⟨["Produto", "Quantidade (L.)", "Classification", "Year"],
        [[Value.str "VINHO A", Value.str "10.000", Value.str "VINHO A",
          Value.int 2020],
         [Value.str "TOTAL", Value.str "14.000", Value.str "TOTAL",
          Value.int 2020],
         [Value.str "VINHO B", Value.str "10.000", Value.str "VINHO B",
          Value.int 2021],
         [Value.str "TOTAL", Value.str "14.000", Value.str "TOTAL",
          Value.int 2021]]⟩ : DataFrame).rows = blocks.flatten ∧
      ∀ (j y : Nat) (bl : List (List Value)),
        ([2020, 2021] : List Nat)[j]? = some y → blocks[j]? = some bl →
        ∀ r ∈ bl, r.getD ((["Produto", "Quantidade (L.)", "Classification",
          "Year"] : List String).indexOf "Year") Value.nan = Value.int y :=
  run_scraping_accumulates_in_year_order [2020, 2021] []
    (fun y _ => [⟨"tb_base tb_dados",
      ⟨["Produto", "Quantidade (L.)"],
       [⟨[], false⟩,
        ⟨[⟨(if y = 2020 then "vinho A" else "vinho B"), ["tb_item"]⟩,
          ⟨"10.000", []⟩], false⟩,
        ⟨[⟨"Total", []⟩, ⟨"14.000", []⟩], true⟩]⟩⟩])
    ["Produto", "Quantidade (L.)", "Classification", "Year"]
    (by decide) (by decide) _ (by decide)

/-- Claim C7: the table locator returns an explicit absent result — `None`
exactly when no table node carries the `'tb_base tb_dados'` marker, never
an exception — and a combination whose document has no data table
contributes nothing: the loop step returns the accumulator unchanged and
the run continues with the remaining combinations. -/
theorem missing_table_is_absent_and_skipped :
    (∀ soup : Document, find_data_table soup = none ↔
      ∀ n ∈ soup, n.classAttr ≠ "tb_base tb_dados") ∧
    (∀ (fetchDoc : Nat → Option Button → Document) (data : DataFrame)
      (year : Nat) (button : Option Button),
      find_data_table (fetchDoc year button) = none →
      stepCombo fetchDoc data year button = some data) := by
  constructor
  · intro soup
    simp only [find_data_table, Option.map_eq_none']
    rw [List.find?_eq_none]
    constructor
    · intro h n hn
      have := h n hn
      simpa using this
    · intro h n hn
      simpa using h n hn
  · intro f data y b h
    simp [stepCombo, h]

/-- Witness for C7: a document holding a table without the marker yields
the absent result, and the loop step leaves the accumulated frame
unchanged for it. -/
theorem missing_table_is_absent_and_skipped_witness :
    find_data_table [⟨"tb_base", ⟨["Produto"], []⟩⟩] = none ∧
    stepCombo (fun _ _ => [⟨"tb_base", ⟨["Produto"], []⟩⟩])
      ⟨["A"], [[Value.int 1]]⟩ 2020 none = some ⟨["A"], [[Value.int 1]]⟩ :=
  ⟨(missing_table_is_absent_and_skipped.1 _).mpr (by decide),
   missing_table_is_absent_and_skipped.2 _ _ 2020 none (by decide)⟩

end App
